import Mathlib

/-!
Verification development for the `advanced-python-calculator` repository.

The Python modules `calculator/core/plugin_interface.py`,
`calculator/core/repl.py` and `calculator/core/enhanced_repl.py` are
shallowly embedded below.  Python `dict`s become association lists with
dict semantics (insert updates in place or appends; `del` removes the
unique entry; lookup returns the stored value).  Python exceptions in the
dynamic plugin machinery become `Option`-valued outcomes: `none` models a
raised exception, `some x` a normal return of `x`.  Floats are modelled as
rationals with an explicit decimal-literal parser.
-/

namespace Calc

/-! ### Python dict model -/

variable {K : Type} {α : Type} [DecidableEq K]

/-- `d[k] = v` on a Python dict: update the existing entry in place,
otherwise append a fresh entry at the end. -/
def dinsert (k : K) (v : α) : List (K × α) → List (K × α)
  | [] => [(k, v)]
  | (k', v') :: rest =>
    if k' = k then (k, v) :: rest else (k', v') :: dinsert k v rest

/-- `d.get(k)` / `d[k]` read on a Python dict. -/
def dlookup (k : K) : List (K × α) → Option α
  | [] => none
  | (k', v') :: rest => if k' = k then some v' else dlookup k rest

/-- `del d[k]` on a Python dict: drop every entry stored under `k`
(on dict-shaped lists there is at most one), keeping the others in order. -/
def derase (k : K) (m : List (K × α)) : List (K × α) :=
  m.filter (fun e => e.1 ≠ k)

/-- `k in d` on a Python dict. -/
def dmem (k : K) (m : List (K × α)) : Bool :=
  (dlookup k m).isSome

/-- Dict invariant: each key occurs at most once. -/
def nodupKeys (m : List (K × α)) : Prop :=
  (m.map Prod.fst).Nodup

/-! ### Plugin data model (`calculator/core/plugin_interface.py`)

A command, as the `PluginManager` sees it, is an opaque object whose only
observed method is `get_name()`; the `tag` field stands for the object's
identity/payload so that distinct commands with equal names can be told
apart. -/

structure PCmd where
  name : String
  tag : Nat
deriving DecidableEq, Repr

/-- The behaviour of an instantiated plugin object.  Each method call the
manager performs is a field; `none` models the call raising an exception,
`some` its return value.  `initialize`/`cleanup` return booleans
(`Plugin.initialize` / `Plugin.cleanup`). -/
structure PluginInst where
  pinit : Option Bool
  getName : Option String
  getVersion : Option String
  getDescription : Option String
  getCommands : Option (List PCmd)
  cleanup : Option Bool
deriving DecidableEq, Repr

/-- A plugin class found in a module: calling it (`plugin_class()`) either
raises (`none`) or yields an instance. -/
structure PluginClass where
  construct : Option PluginInst
deriving DecidableEq, Repr

/-- A discovered candidate's dynamic behaviour: whether the module
load/import at its path succeeds, and the result of
`_find_plugin_class` on the loaded module (`none` inside = no conforming
class found). -/
structure Candidate where
  moduleOk : Bool
  pluginClass : Option PluginClass
deriving DecidableEq, Repr

/-- The metadata snapshot stored in `plugin_info[plugin_name]`. -/
structure PluginInfo where
  name : String
  version : String
  description : String
  path : String
deriving DecidableEq, Repr

/-- The mutable state of a `PluginManager`. -/
structure ManagerState where
  loaded_plugins : List (String × PluginInst)
  plugin_commands : List (String × PCmd)
  plugin_info : List (String × PluginInfo)
deriving DecidableEq, Repr

/-- The command-registration loop of `load_plugin` (lines 120-124):
`for command in commands: self.plugin_commands[command.get_name()] = command`. -/
def registerCommands (cmds : List PCmd) (m : List (String × PCmd)) :
    List (String × PCmd) :=
  cmds.foldl (fun m c => dinsert c.name c m) m

/-- The last command named `k` in a list, if any — the "last writer" for
key `k` in the registration loop. -/
def lastWith (k : String) : List PCmd → Option PCmd
  | [] => none
  | c :: cs =>
    match lastWith k cs with
    | some c' => some c'
    | none => if c.name = k then some c else none

/-- `PluginManager.load_plugin` (plugin_interface.py lines 81-131).
Returns the boolean result paired with the state after the call; every
`(false, _)` branch corresponds to an exception reaching the
`except Exception` handler, which prints and returns `False`.  The final
`print` re-calls `get_name`/`get_version`, whose results are fixed fields
here, so it cannot fail anew. -/
def load_plugin (st : ManagerState) (plugin_name : String) (cand : Candidate)
    (plugin_path : String) : Bool × ManagerState :=
  -- module load (single-file exec_module or package import): may raise
  if ¬ cand.moduleOk then (false, st)
  else
    match cand.pluginClass with
    | none => (false, st)          -- raise ImportError "No Plugin class found"
    | some cls =>
      match cls.construct with
      | none => (false, st)        -- plugin_class() raised
      | some inst =>
        match inst.pinit with
        | none => (false, st)      -- initialize() raised
        | some false => (false, st) -- raise RuntimeError "Failed to initialize"
        | some true =>
          -- self.loaded_plugins[plugin_name] = plugin_instance
          let st1 := { st with
            loaded_plugins := dinsert plugin_name inst st.loaded_plugins }
          -- metadata snapshot: get_name / get_version / get_description
          match inst.getName with
          | none => (false, st1)
          | some nm =>
            match inst.getVersion with
            | none => (false, st1)
            | some ver =>
              match inst.getDescription with
              | none => (false, st1)
              | some desc =>
                let st2 := { st1 with
                  plugin_info := dinsert plugin_name
                    ⟨nm, ver, desc, plugin_path⟩ st1.plugin_info }
                match inst.getCommands with
                | none => (false, st2)
                | some cmds =>
                  (true, { st2 with
                    plugin_commands := registerCommands cmds st2.plugin_commands })

/-- All the ways `load_plugin`'s try-block can raise (or, for
`initialize`, return `False`), as a decidable predicate on the candidate's
behaviour. -/
def candFails (cand : Candidate) : Bool :=
  ¬ cand.moduleOk ||
  match cand.pluginClass with
  | none => true
  | some cls =>
    match cls.construct with
    | none => true
    | some inst =>
      inst.pinit ≠ some true ||
      inst.getName = none ||
      inst.getVersion = none ||
      inst.getDescription = none ||
      inst.getCommands = none

/-- `PluginManager.load_all_plugins` (lines 143-151), with discovery's
output passed in as the list of `(plugin_name, plugin_path)` pairs and the
filesystem/module environment as a map from path to candidate behaviour. -/
def load_all_plugins (env : String → Candidate) (st : ManagerState)
    (discovered : List (String × String)) :
    List (String × Bool) × ManagerState :=
  discovered.foldl
    (fun acc d =>
      let r := load_plugin acc.2 d.1 (env d.2) d.2
      (dinsert d.1 r.1 acc.1, r.2))
    ([], st)

/-- The command-removal loop of `unload_plugin` (lines 170-175):
`for command in commands: if command.get_name() in self.plugin_commands:
del self.plugin_commands[command.get_name()]`. -/
def removeCommands (cmds : List PCmd) (m : List (String × PCmd)) :
    List (String × PCmd) :=
  cmds.foldl (fun m c => if dmem c.name m then derase c.name m else m) m

/-- `PluginManager.unload_plugin` (lines 161-184).  The result of
`plugin.cleanup()` is discarded by the source; only an exception from it
aborts the removal.  `del self.plugin_info[plugin_name]` raises `KeyError`
when the key is absent, which the handler turns into `False` after the
earlier removals already happened. -/
def unload_plugin (st : ManagerState) (plugin_name : String) :
    Bool × ManagerState :=
  match dlookup plugin_name st.loaded_plugins with
  | none => (false, st)
  | some plugin =>
    match plugin.cleanup with
    | none => (false, st)          -- cleanup() raised: caught, return False
    | some _ =>                    -- boolean result ignored by the source
      match plugin.getCommands with
      | none => (false, st)        -- get_commands() raised
      | some cmds =>
        let pc := removeCommands cmds st.plugin_commands
        let st1 := { st with
          plugin_commands := pc,
          loaded_plugins := derase plugin_name st.loaded_plugins }
        if dmem plugin_name st1.plugin_info then
          (true, { st1 with plugin_info := derase plugin_name st1.plugin_info })
        else
          (false, st1)             -- KeyError from del, caught

/-! ### REPL embedding (`calculator/core/repl.py`)

Floats are modelled as rationals; `parseFloat` models Python's
`float(str)` restricted to plain signed decimal literals (no exponent,
no `inf`/`nan`, no surrounding whitespace), which covers every literal
the calculator's claims exercise. -/

/-- Python `str.lower()`: lower-case each character.  (`String.toLower`
is extensionally the same but its implementation does not reduce in the
kernel, so the claims use this definition.) -/
def strLower (s : String) : String :=
  String.mk (s.data.map Char.toLower)

/-- A value a command's `execute` can produce: a number or a string. -/
inductive Value where
  | num (q : ℚ)
  | str (s : String)
deriving DecidableEq, Repr

/-- Outcome of `execute`: a normal return, or a raised `ValueError`
(the uniform recoverable user-input/computation error). -/
inductive ExecResult where
  | ok (v : Value)
  | valueError (msg : String)
deriving DecidableEq, Repr

/-- Numeric value of a digit list, most significant first. -/
def digitsVal (cs : List Char) : Nat :=
  cs.foldl (fun a c => a * 10 + (c.toNat - 48)) 0

/-- `float(s)` on an unsigned decimal literal: digits with at most one
dot, at least one digit overall (`"5."` and `".5"` parse, `"."` does not). -/
def parseUnsigned (cs : List Char) : Option ℚ :=
  let intp := cs.takeWhile (fun c => c ≠ '.')
  let rest := cs.dropWhile (fun c => c ≠ '.')
  match rest with
  | [] =>
    if intp ≠ [] ∧ intp.all Char.isDigit then some (digitsVal intp) else none
  | _ :: frac =>
    if frac.all (fun c => c ≠ '.') ∧ intp ++ frac ≠ [] ∧
        (intp ++ frac).all Char.isDigit then
      some ((digitsVal intp : ℚ) + (digitsVal frac : ℚ) / (10 ^ frac.length))
    else none

/-- `float(s)`: optional sign, then an unsigned decimal literal. -/
def parseFloat (s : String) : Option ℚ :=
  match s.toList with
  | '-' :: rest => (parseUnsigned rest).map (fun q => -q)
  | '+' :: rest => parseUnsigned rest
  | cs => parseUnsigned cs

/-- The four built-in arithmetic operations (`_setup_basic_commands`). -/
inductive ArithOp where
  | add
  | subtract
  | multiply
  | divide
deriving DecidableEq, Repr

/-- The `operation` string each `ArithmeticCommand` is constructed with. -/
def ArithOp.operation : ArithOp → String
  | .add => "add"
  | .subtract => "subtract"
  | .multiply => "multiply"
  | .divide => "divide"

/-- The `func` lambda each `ArithmeticCommand` is constructed with;
`none` models the `ZeroDivisionError` float division raises on a zero
divisor. -/
def ArithOp.func : ArithOp → ℚ → ℚ → Option ℚ
  | .add, x, y => some (x + y)
  | .subtract, x, y => some (x - y)
  | .multiply, x, y => some (x * y)
  | .divide, x, y => if y = 0 then none else some (x / y)

namespace ArithmeticCommand

/-- `ArithmeticCommand.execute` (repl.py lines 35-47): argument-count
check, then parse both arguments, then apply `func`; parse failures and
`ZeroDivisionError` are re-raised as `ValueError`. -/
def execute (op : ArithOp) (args : List String) : ExecResult :=
  match args with
  | [a1, a2] =>
    match parseFloat a1 with
    | none => .valueError "Invalid number format"
    | some x =>
      match parseFloat a2 with
      | none => .valueError "Invalid number format"
      | some y =>
        match op.func x y with
        | none => .valueError "Division by zero is not allowed"
        | some r => .ok (.num r)
  | _ => .valueError (op.operation ++ " requires exactly 2 arguments")

/-- `ArithmeticCommand.get_name` returns `self.operation.lower()`; the
four operation strings are already lower-case. -/
def get_name (op : ArithOp) : String :=
  strLower op.operation

end ArithmeticCommand

/-- A command as the `CommandRegistry` and the REPL engine see it: its
`get_name()` result, an identity tag, and its `execute` behaviour. -/
structure Cmd where
  name : String
  tag : Nat
  exec : List String → ExecResult

/-- `CommandRegistry.register_command` (repl.py lines 114-115):
`self.commands[command.get_name()] = command` — the key is the command's
name verbatim. -/
def register_command (commands : List (String × Cmd)) (c : Cmd) :
    List (String × Cmd) :=
  dinsert c.name c commands

/-- `CommandRegistry.get_command` (repl.py lines 117-118):
`self.commands.get(name.lower())`. -/
def get_command (commands : List (String × Cmd)) (name : String) :
    Option Cmd :=
  dlookup (strLower name) commands

/-- One entry of the `HistoryTracker` (timestamp omitted: wall-clock
time, irrelevant to every claim). -/
structure HistoryEntry where
  command : String
  args : List String
  result : Value
  success : Bool

/-- The REPL engine's mutable state relevant to dispatch: the `running`
flag and the history list. -/
structure ReplState where
  running : Bool
  history : List HistoryEntry

/-- Python `str.split()` with no separator: split on space runs,
dropping empty pieces. -/
def splitInput (s : String) : List String :=
  ((s.toList.foldr
      (fun c acc =>
        if c = ' ' then ([], acc.1 :: acc.2)
        else (c :: acc.1, acc.2))
      ([], [])) |> (fun p => p.1 :: p.2))
    |>.filter (fun w => w ≠ [])
    |>.map (fun w => String.mk w)

/-- `REPLEngine._process_command` (repl.py lines 187-218), with the
registry's command table passed explicitly.  The result is compared to
the string `"EXIT"` by plain equality; only a `str` value can match. -/
def process_command (commands : List (String × Cmd)) (st : ReplState)
    (user_input : String) : ReplState :=
  match splitInput user_input with
  | [] => st
  | name :: args =>
    let command_name := strLower name
    match get_command commands command_name with
    | none =>
      { st with history := st.history ++
          [⟨command_name, args,
            .str ("Unknown command: " ++ command_name ++
              ". Type 'help' for available commands."), false⟩] }
    | some command =>
      match command.exec args with
      | .ok result =>
        if result = .str "EXIT" then
          { st with running := false }
        else
          { st with history := st.history ++
              [⟨command_name, args, result, true⟩] }
      | .valueError msg =>
        { st with history := st.history ++
            [⟨command_name, args, .str ("Error: " ++ msg), false⟩] }

/-! ### Dictionary lemmas -/

theorem dlookup_dinsert (k k' : K) (v : α) (m : List (K × α)) :
    dlookup k (dinsert k' v m) = if k = k' then some v else dlookup k m := by
  induction m with
  | nil =>
    by_cases h : k = k' <;> simp_all [dinsert, dlookup, eq_comm]
  | cons e rest ih =>
    obtain ⟨ek, ev⟩ := e
    by_cases h1 : ek = k' <;> by_cases h2 : ek = k <;> by_cases h3 : k = k' <;>
      simp_all [dinsert, dlookup]

theorem dlookup_derase (k k' : K) (m : List (K × α)) :
    dlookup k (derase k' m) = if k = k' then none else dlookup k m := by
  induction m with
  | nil => simp [derase, dlookup]
  | cons e rest ih =>
    obtain ⟨ek, ev⟩ := e
    by_cases h1 : ek = k' <;> by_cases h2 : ek = k <;> by_cases h3 : k = k' <;>
      simp_all [derase, List.filter_cons, dlookup]

theorem dmem_eq_true_iff (k : K) (m : List (K × α)) :
    dmem k m = true ↔ ∃ v, dlookup k m = some v := by
  simp [dmem, Option.isSome_iff_exists]

theorem mem_map_fst_dinsert (a k : K) (v : α) (m : List (K × α)) :
    a ∈ (dinsert k v m).map Prod.fst ↔ a = k ∨ a ∈ m.map Prod.fst := by
  induction m with
  | nil => simp [dinsert]
  | cons e rest ih =>
    obtain ⟨ek, ev⟩ := e
    by_cases h1 : ek = k <;> simp_all [dinsert] <;> tauto

theorem nodupKeys_dinsert (k : K) (v : α) (m : List (K × α))
    (h : nodupKeys m) : nodupKeys (dinsert k v m) := by
  induction m with
  | nil => simp [dinsert, nodupKeys]
  | cons e rest ih =>
    obtain ⟨ek, ev⟩ := e
    simp only [nodupKeys, List.map_cons, List.nodup_cons] at h
    by_cases h1 : ek = k
    · subst h1
      simpa [dinsert, nodupKeys] using h
    · have hrest := ih h.2
      simp only [dinsert, if_neg h1, nodupKeys, List.map_cons, List.nodup_cons]
      refine ⟨fun hmem => ?_, hrest⟩
      rcases (mem_map_fst_dinsert ek k v rest).mp hmem with h2 | h2
      · exact h1 h2
      · exact h.1 h2

theorem dlookup_registerCommands (k : String) (cmds : List PCmd)
    (m : List (String × PCmd)) :
    dlookup k (registerCommands cmds m) =
      match lastWith k cmds with
      | some c => some c
      | none => dlookup k m := by
  induction cmds generalizing m with
  | nil => simp [registerCommands, lastWith]
  | cons c cs ih =>
    show dlookup k (registerCommands cs (dinsert c.name c m)) = _
    rw [ih]
    cases hl : lastWith k cs with
    | some c' => simp [lastWith, hl]
    | none =>
      by_cases hc : c.name = k
      · simp only [lastWith, hl, if_pos hc, dlookup_dinsert]
        rw [if_pos hc.symm]
      · simp only [lastWith, hl, if_neg hc, dlookup_dinsert]
        rw [if_neg (fun hh => hc hh.symm)]

theorem nodupKeys_registerCommands (cmds : List PCmd)
    (m : List (String × PCmd)) (h : nodupKeys m) :
    nodupKeys (registerCommands cmds m) := by
  induction cmds generalizing m with
  | nil => exact h
  | cons c cs ih => exact ih _ (nodupKeys_dinsert _ _ _ h)

theorem dlookup_removeCommands (k : String) (cmds : List PCmd)
    (m : List (String × PCmd)) :
    dlookup k (removeCommands cmds m) =
      if cmds.any (fun c => c.name = k) then none else dlookup k m := by
  induction cmds generalizing m with
  | nil => simp [removeCommands]
  | cons c cs ih =>
    have step : dlookup k (if dmem c.name m then derase c.name m else m) =
        if k = c.name then none else dlookup k m := by
      by_cases hm : dmem c.name m = true
      · rw [if_pos hm, dlookup_derase]
      · rw [if_neg hm]
        by_cases hk : k = c.name
        · have hmn : dlookup c.name m = none := by
            cases hl : dlookup c.name m with
            | none => rfl
            | some v => exact absurd (by simp [dmem, hl]) hm
          rw [if_pos hk, hk, hmn]
        · rw [if_neg hk]
    show dlookup k (removeCommands cs _) = _
    rw [ih, step]
    by_cases ha : (cs.any fun c => decide (c.name = k)) = true
    · simp [List.any_cons, ha]
    · by_cases hc : c.name = k
      · simp [List.any_cons, ha, hc]
      · simp [List.any_cons, ha, hc,
          show ¬ k = c.name from fun hh => hc hh.symm]

/-! ### Claim theorems -/

/-- C2: after the registration loop inserts each command keyed by its own
`get_name()`, the `plugin_commands` mapping has exactly one entry per
command name (no-duplicate-keys preserved, with no uniqueness check or
conflict error), and the entry stored under a name is the command
registered last among all commands sharing that name; names untouched by
the loop keep their previous occupant. -/
theorem claim_C2_last_writer_wins (cmds : List PCmd)
    (m : List (String × PCmd)) (k : String) (h : nodupKeys m) :
    nodupKeys (registerCommands cmds m) ∧
    dlookup k (registerCommands cmds m) =
      (match lastWith k cmds with
       | some c => some c
       | none => dlookup k m) :=
  ⟨nodupKeys_registerCommands cmds m h, dlookup_registerCommands k cmds m⟩

theorem claim_C2_witness :
    nodupKeys (registerCommands [⟨"x", 0⟩, ⟨"x", 1⟩, ⟨"y", 2⟩] []) ∧
    dlookup "x" (registerCommands [⟨"x", 0⟩, ⟨"x", 1⟩, ⟨"y", 2⟩] []) =
      some ⟨"x", 1⟩ := by
  have h := claim_C2_last_writer_wins [⟨"x", 0⟩, ⟨"x", 1⟩, ⟨"y", 2⟩] [] "x"
    (by simp [nodupKeys])
  exact ⟨h.1, by rw [h.2]; decide⟩

/-- C3: unloading a currently-loaded plugin (whose `cleanup` and
`get_commands` return normally, and whose metadata entry exists) reports
success and removes from `plugin_commands` exactly the names its
`get_commands()` reports — the current occupant of each such name,
whatever its origin — leaving every other name's entry unchanged, and
deletes exactly this plugin's entries from `loaded_plugins` and
`plugin_info`. -/
theorem claim_C3_unload_removes_exactly_its_names (st : ManagerState)
    (n : String) (plugin : PluginInst) (cmds : List PCmd) (b : Bool)
    (hload : dlookup n st.loaded_plugins = some plugin)
    (hclean : plugin.cleanup = some b)
    (hcmds : plugin.getCommands = some cmds)
    (hinfo : dmem n st.plugin_info = true) :
    (unload_plugin st n).1 = true
    ∧ (∀ k, (cmds.any fun c => c.name = k) = true →
        dlookup k (unload_plugin st n).2.plugin_commands = none)
    ∧ (∀ k, (cmds.any fun c => c.name = k) = false →
        dlookup k (unload_plugin st n).2.plugin_commands =
          dlookup k st.plugin_commands)
    ∧ dlookup n (unload_plugin st n).2.loaded_plugins = none
    ∧ dlookup n (unload_plugin st n).2.plugin_info = none
    ∧ (∀ k, k ≠ n → dlookup k (unload_plugin st n).2.loaded_plugins =
        dlookup k st.loaded_plugins)
    ∧ (∀ k, k ≠ n → dlookup k (unload_plugin st n).2.plugin_info =
        dlookup k st.plugin_info) := by
  have hres : unload_plugin st n =
      (true, { loaded_plugins := derase n st.loaded_plugins,
               plugin_commands := removeCommands cmds st.plugin_commands,
               plugin_info := derase n st.plugin_info }) := by
    simp [unload_plugin, hload, hclean, hcmds, hinfo]
  refine ⟨by rw [hres], fun k hk => ?_, fun k hk => ?_, ?_, ?_,
    fun k hk => ?_, fun k hk => ?_⟩
  · rw [hres]
    simp only [dlookup_removeCommands, hk, if_pos]
  · rw [hres]
    simp only [dlookup_removeCommands, hk]
    simp
  · rw [hres]
    simp [dlookup_derase]
  · rw [hres]
    simp [dlookup_derase]
  · rw [hres]
    simp [dlookup_derase, hk]
  · rw [hres]
    simp [dlookup_derase, hk]

theorem claim_C3_witness :
    (unload_plugin
      ⟨[("p", ⟨some true, some "P", some "1", some "d",
          some [⟨"c1", 0⟩], some true⟩)],
       [("c1", ⟨"c1", 7⟩), ("other", ⟨"other", 5⟩)],
       [("p", ⟨"P", "1", "d", "path"⟩)]⟩ "p").1 = true
    ∧ dlookup "c1" (unload_plugin
      ⟨[("p", ⟨some true, some "P", some "1", some "d",
          some [⟨"c1", 0⟩], some true⟩)],
       [("c1", ⟨"c1", 7⟩), ("other", ⟨"other", 5⟩)],
       [("p", ⟨"P", "1", "d", "path"⟩)]⟩ "p").2.plugin_commands = none
    ∧ dlookup "other" (unload_plugin
      ⟨[("p", ⟨some true, some "P", some "1", some "d",
          some [⟨"c1", 0⟩], some true⟩)],
       [("c1", ⟨"c1", 7⟩), ("other", ⟨"other", 5⟩)],
       [("p", ⟨"P", "1", "d", "path"⟩)]⟩ "p").2.plugin_commands =
        some ⟨"other", 5⟩ := by
  have h := claim_C3_unload_removes_exactly_its_names
    ⟨[("p", ⟨some true, some "P", some "1", some "d",
        some [⟨"c1", 0⟩], some true⟩)],
     [("c1", ⟨"c1", 7⟩), ("other", ⟨"other", 5⟩)],
     [("p", ⟨"P", "1", "d", "path"⟩)]⟩ "p"
    ⟨some true, some "P", some "1", some "d", some [⟨"c1", 0⟩], some true⟩
    [⟨"c1", 0⟩] true (by decide) (by decide) (by decide) (by decide)
  refine ⟨h.1, h.2.1 "c1" (by decide), ?_⟩
  rw [h.2.2.1 "other" (by decide)]
  decide

/-- C4 (code bug): the source discards the boolean result of
`plugin.cleanup()` — on a loaded plugin whose `cleanup()` returns
`False`, `unload_plugin` still returns `True`, contradicting the spec's
requirement that a `false` cleanup result flag the unload as failed. -/
theorem claim_C4_cleanup_false_still_reports_success :
    (unload_plugin
      ⟨[("p", ⟨some true, some "P", some "1", some "d", some [],
          some false⟩)],
       [],
       [("p", ⟨"P", "1", "d", "path"⟩)]⟩ "p").1 = true := by
  decide

/-- C5: when the plugin instance's `initialize()` returns `False` or
raises, `load_plugin` returns `false` and the manager state is exactly
what it was before the call (instantiation and `initialize` precede every
recording step). -/
theorem claim_C5_init_failure_records_nothing (st : ManagerState)
    (n p : String) (cand : Candidate) (cls : PluginClass)
    (inst : PluginInst)
    (hcls : cand.pluginClass = some cls)
    (hinst : cls.construct = some inst)
    (hinit : inst.pinit = some false ∨ inst.pinit = none) :
    load_plugin st n cand p = (false, st) := by
  by_cases hm : cand.moduleOk = true
  · rcases hinit with h | h <;> simp [load_plugin, hm, hcls, hinst, h]
  · simp [load_plugin, hm]

theorem claim_C5_witness :
    load_plugin ⟨[], [], []⟩ "p"
      ⟨true, some ⟨some ⟨some false, some "P", some "1", some "d",
        some [], some true⟩⟩⟩ "path" = (false, ⟨[], [], []⟩) :=
  claim_C5_init_failure_records_nothing ⟨[], [], []⟩ "p" "path"
    ⟨true, some ⟨some ⟨some false, some "P", some "1", some "d",
      some [], some true⟩⟩⟩
    ⟨some ⟨some false, some "P", some "1", some "d", some [], some true⟩⟩
    ⟨some false, some "P", some "1", some "d", some [], some true⟩
    rfl rfl (Or.inl rfl)

/-- C6: `unload_plugin` on a name that is not a key of `loaded_plugins`
returns `false` and leaves the whole manager state unchanged (the early
return precedes the `cleanup` call and every removal). -/
theorem claim_C6_unload_unknown_is_noop (st : ManagerState) (n : String)
    (h : dlookup n st.loaded_plugins = none) :
    unload_plugin st n = (false, st) := by
  simp [unload_plugin, h]

theorem claim_C6_witness :
    unload_plugin ⟨[], [("c", ⟨"c", 3⟩)], []⟩ "ghost" =
      (false, ⟨[], [("c", ⟨"c", 3⟩)], []⟩) :=
  claim_C6_unload_unknown_is_noop ⟨[], [("c", ⟨"c", 3⟩)], []⟩ "ghost" rfl

/-- Keys already present in the accumulated results map stay present, and
every candidate in the remaining list gets an entry, across the
`load_all_plugins` fold. -/
theorem load_all_foldl_results (env : String → Candidate)
    (discovered : List (String × String))
    (acc : List (String × Bool) × ManagerState) :
    (∀ k : String, (dlookup k acc.1).isSome = true →
      (dlookup k (discovered.foldl
        (fun acc d =>
          let r := load_plugin acc.2 d.1 (env d.2) d.2
          (dinsert d.1 r.1 acc.1, r.2)) acc).1).isSome = true)
    ∧ (∀ d ∈ discovered,
      (dlookup d.1 (discovered.foldl
        (fun acc d =>
          let r := load_plugin acc.2 d.1 (env d.2) d.2
          (dinsert d.1 r.1 acc.1, r.2)) acc).1).isSome = true) := by
  induction discovered generalizing acc with
  | nil => simp
  | cons d ds ih =>
    have hstep : ∀ (k : String) (acc' : List (String × Bool) × ManagerState),
        (dlookup k acc'.1).isSome = true →
        (dlookup k (dinsert d.1
          (load_plugin acc'.2 d.1 (env d.2) d.2).1 acc'.1)).isSome = true := by
      intro k acc' hk
      rw [dlookup_dinsert]
      by_cases h : k = d.1 <;> simp [h, hk]
    constructor
    · intro k hk
      simp only [List.foldl_cons]
      exact (ih _).1 k (hstep k acc hk)
    · intro e he
      simp only [List.foldl_cons]
      rcases List.mem_cons.mp he with he | he
    /- head: its key is inserted by this step and survives the rest -/
      · subst he
        apply (ih _).1
        simp [dlookup_dinsert]
      · exact (ih _).2 e he

/-- C1: `load_plugin` returns `false` exactly when some step of its
try-block raises (module load, class discovery, instantiation,
`initialize` failing or raising, metadata snapshot, or
`get_commands`), i.e. every exception is caught and becomes a `false`
return; and `load_all_plugins` runs over every discovered candidate and
its outcome map holds a boolean for each candidate, however many loads
fail. -/
theorem claim_C1_exceptions_isolated (st st2 : ManagerState)
    (n p : String) (cand : Candidate) (env : String → Candidate)
    (discovered : List (String × String)) :
    ((load_plugin st n cand p).1 = false ↔ candFails cand = true)
    ∧ (∀ d ∈ discovered,
        ∃ b, dlookup d.1 (load_all_plugins env st2 discovered).1 = some b) := by
  constructor
  · obtain ⟨mok, pc⟩ := cand
    cases mok with
    | false => simp [load_plugin, candFails]
    | true =>
      cases pc with
      | none => simp [load_plugin, candFails]
      | some cls =>
        obtain ⟨ci⟩ := cls
        cases ci with
        | none => simp [load_plugin, candFails]
        | some inst =>
          obtain ⟨pi, gn, gv, gd, gc, cl⟩ := inst
          cases pi with
          | none => simp [load_plugin, candFails]
          | some b =>
            cases b with
            | false => simp [load_plugin, candFails]
            | true =>
              cases gn <;> cases gv <;> cases gd <;> cases gc <;>
                simp [load_plugin, candFails]
  · intro d hd
    have h := (load_all_foldl_results env discovered ([], st2)).2 d hd
    rw [Option.isSome_iff_exists] at h
    exact h

theorem claim_C1_witness :
    ((load_plugin ⟨[], [], []⟩ "bad" ⟨true, none⟩ "path").1 = false)
    ∧ (∃ b, dlookup "bad"
        (load_all_plugins (fun _ => ⟨true, none⟩) ⟨[], [], []⟩
          [("bad", "path"), ("worse", "path2")]).1 = some b) := by
  have h := claim_C1_exceptions_isolated ⟨[], [], []⟩ ⟨[], [], []⟩
    "bad" "path" ⟨true, none⟩ (fun _ => ⟨true, none⟩)
    [("bad", "path"), ("worse", "path2")]
  exact ⟨h.1.mpr (by decide), h.2 ("bad", "path") (by decide)⟩

/-- C7: reloading an already-successfully-loaded plugin with identical
source succeeds again and is idempotent in effect: the key sets of
`plugin_commands`, `loaded_plugins` and `plugin_info` after the reload
equal those after the first successful load. -/
theorem claim_C7_reload_idempotent (st : ManagerState) (n p : String)
    (cand : Candidate) (cls : PluginClass) (inst : PluginInst)
    (nm ver desc : String) (cmds : List PCmd)
    (hmod : cand.moduleOk = true)
    (hcls : cand.pluginClass = some cls)
    (hinst : cls.construct = some inst)
    (hinit : inst.pinit = some true)
    (hnm : inst.getName = some nm)
    (hver : inst.getVersion = some ver)
    (hdesc : inst.getDescription = some desc)
    (hcmds : inst.getCommands = some cmds) :
    (load_plugin st n cand p).1 = true
    ∧ (load_plugin (load_plugin st n cand p).2 n cand p).1 = true
    ∧ (∀ k, dmem k (load_plugin (load_plugin st n cand p).2 n cand p).2.plugin_commands =
        dmem k (load_plugin st n cand p).2.plugin_commands)
    ∧ (∀ k, dmem k (load_plugin (load_plugin st n cand p).2 n cand p).2.loaded_plugins =
        dmem k (load_plugin st n cand p).2.loaded_plugins)
    ∧ (∀ k, dmem k (load_plugin (load_plugin st n cand p).2 n cand p).2.plugin_info =
        dmem k (load_plugin st n cand p).2.plugin_info) := by
  have hrun : ∀ s : ManagerState, load_plugin s n cand p =
      (true, { loaded_plugins := dinsert n inst s.loaded_plugins,
               plugin_commands := registerCommands cmds s.plugin_commands,
               plugin_info := dinsert n ⟨nm, ver, desc, p⟩ s.plugin_info }) := by
    intro s
    simp [load_plugin, hmod, hcls, hinst, hinit, hnm, hver, hdesc, hcmds]
  have hmem_ins : ∀ (k : String) {β : Type} (v v' : β)
      (m : List (String × β)),
      dmem k (dinsert n v (dinsert n v' m)) = dmem k (dinsert n v' m) := by
    intro k β v v' m
    simp only [dmem, dlookup_dinsert]
    by_cases h : k = n <;> simp [h]
  have hmem_reg : ∀ (k : String) (m : List (String × PCmd)),
      dmem k (registerCommands cmds (registerCommands cmds m)) =
        dmem k (registerCommands cmds m) := by
    intro k m
    simp only [dmem, dlookup_registerCommands]
    cases h : lastWith k cmds <;> simp [h, dlookup_registerCommands]
  refine ⟨by rw [hrun st], by rw [hrun st, hrun _], fun k => ?_,
    fun k => ?_, fun k => ?_⟩
  · rw [hrun st, hrun _]
    exact hmem_reg k st.plugin_commands
  · rw [hrun st, hrun _]
    exact hmem_ins k inst inst st.loaded_plugins
  · rw [hrun st, hrun _]
    exact hmem_ins k ⟨nm, ver, desc, p⟩ ⟨nm, ver, desc, p⟩ st.plugin_info

theorem claim_C7_witness :
    (load_plugin ⟨[], [], []⟩ "p"
      ⟨true, some ⟨some ⟨some true, some "P", some "1", some "d",
        some [⟨"c", 0⟩], some true⟩⟩⟩ "path").1 = true
    ∧ dmem "c" (load_plugin
        (load_plugin ⟨[], [], []⟩ "p"
          ⟨true, some ⟨some ⟨some true, some "P", some "1", some "d",
            some [⟨"c", 0⟩], some true⟩⟩⟩ "path").2 "p"
        ⟨true, some ⟨some ⟨some true, some "P", some "1", some "d",
          some [⟨"c", 0⟩], some true⟩⟩⟩ "path").2.plugin_commands =
      dmem "c" (load_plugin ⟨[], [], []⟩ "p"
        ⟨true, some ⟨some ⟨some true, some "P", some "1", some "d",
          some [⟨"c", 0⟩], some true⟩⟩⟩ "path").2.plugin_commands := by
  have h := claim_C7_reload_idempotent ⟨[], [], []⟩ "p" "path"
    ⟨true, some ⟨some ⟨some true, some "P", some "1", some "d",
      some [⟨"c", 0⟩], some true⟩⟩⟩
    ⟨some ⟨some true, some "P", some "1", some "d",
      some [⟨"c", 0⟩], some true⟩⟩
    ⟨some true, some "P", some "1", some "d", some [⟨"c", 0⟩], some true⟩
    "P" "1" "d" [⟨"c", 0⟩] rfl rfl rfl rfl rfl rfl rfl rfl
  exact ⟨h.1, h.2.2.1 "c"⟩

/-- C8: for two numeric arguments the arithmetic commands return the
mathematical operation applied to the parsed values; division by zero,
a wrong argument count, and an unparseable argument each produce the one
uniform recoverable error kind (`ValueError`), never a crash. -/
theorem claim_C8_arith_results (op : ArithOp) (a1 a2 : String) (x y : ℚ)
    (h1 : parseFloat a1 = some x) (h2 : parseFloat a2 = some y) :
    (ArithmeticCommand.execute .add [a1, a2] = .ok (.num (x + y)))
    ∧ (ArithmeticCommand.execute .subtract [a1, a2] = .ok (.num (x - y)))
    ∧ (ArithmeticCommand.execute .multiply [a1, a2] = .ok (.num (x * y)))
    ∧ (y ≠ 0 →
        ArithmeticCommand.execute .divide [a1, a2] = .ok (.num (x / y)))
    ∧ (y = 0 → ArithmeticCommand.execute .divide [a1, a2] =
        .valueError "Division by zero is not allowed")
    ∧ (∀ args : List String, args.length ≠ 2 →
        ArithmeticCommand.execute op args =
          .valueError (op.operation ++ " requires exactly 2 arguments"))
    ∧ (∀ s1 s2 : String, parseFloat s1 = none →
        ArithmeticCommand.execute op [s1, s2] =
          .valueError "Invalid number format")
    ∧ (∀ s2 : String, parseFloat s2 = none →
        ArithmeticCommand.execute op [a1, s2] =
          .valueError "Invalid number format") := by
  refine ⟨?_, ?_, ?_, fun hy => ?_, fun hy => ?_, fun args hlen => ?_,
    fun s1 s2 hs1 => ?_, fun s2 hs2 => ?_⟩
  · simp [ArithmeticCommand.execute, h1, h2, ArithOp.func]
  · simp [ArithmeticCommand.execute, h1, h2, ArithOp.func]
  · simp [ArithmeticCommand.execute, h1, h2, ArithOp.func]
  · simp [ArithmeticCommand.execute, h1, h2, ArithOp.func, hy]
  · simp [ArithmeticCommand.execute, h1, h2, ArithOp.func, hy]
  · rcases args with _ | ⟨u, _ | ⟨v, _ | ⟨w, t⟩⟩⟩
    · rfl
    · rfl
    · exact absurd rfl hlen
    · rfl
  · simp [ArithmeticCommand.execute, hs1]
  · simp [ArithmeticCommand.execute, h1, hs2]

theorem claim_C8_witness :
    ArithmeticCommand.execute .add ["2", "3"] = .ok (.num (2 + 3))
    ∧ ArithmeticCommand.execute .divide ["10", "0"] =
        .valueError "Division by zero is not allowed"
    ∧ ArithmeticCommand.execute .add ["2"] =
        .valueError "add requires exactly 2 arguments" := by
  have ha := claim_C8_arith_results .add "2" "3" 2 3 (by decide) (by decide)
  have hd := claim_C8_arith_results .divide "10" "0" 10 0
    (by decide) (by decide)
  exact ⟨ha.1, hd.2.2.2.2.1 rfl,
    ha.2.2.2.2.2.1 ["2"] (by decide)⟩

/-- C9 is false as stated: `register_command` stores the command's
`get_name()` verbatim, with no lower-casing.  A command named `"Foo"` is
stored under the key `"Foo"`, which is not the name lower-cased, and
`get_command` (which lower-cases the query to `"foo"`) cannot retrieve
it under the very name it was registered with. -/
theorem claim_C9_counterexample :
    register_command [] ⟨"Foo", 0, fun _ => .ok (.str "")⟩ =
      [("Foo", ⟨"Foo", 0, fun _ => .ok (.str "")⟩)]
    ∧ strLower "Foo" ≠ "Foo"
    ∧ get_command (register_command [] ⟨"Foo", 0, fun _ => .ok (.str "")⟩)
        "Foo" = none := by
  refine ⟨rfl, by decide, rfl⟩

/-- C9 amended: `register_command` stores the command under its
`get_name()` verbatim and `get_command` lower-cases the lookup name, so
for every command whose name is already lower-case — as all built-in and
shipped plugin command names are — the stored key equals the name
lower-cased and `get_command` retrieves the command under any casing
that lower-cases to its name. -/
theorem claim_C9_amended_lowercase_keys (m : List (String × Cmd)) (c : Cmd)
    (hlc : strLower c.name = c.name) :
    dlookup (strLower c.name) (register_command m c) = some c
    ∧ (∀ q : String, strLower q = c.name →
        get_command (register_command m c) q = some c) := by
  constructor
  · rw [hlc, register_command, dlookup_dinsert]
    simp
  · intro q hq
    rw [get_command, hq, register_command, dlookup_dinsert]
    simp

theorem claim_C9_witness :
    dlookup (strLower "add")
      (register_command [] ⟨"add", 0, fun _ => .ok (.str "")⟩) =
        some ⟨"add", 0, fun _ => .ok (.str "")⟩
    ∧ get_command (register_command [] ⟨"add", 0, fun _ => .ok (.str "")⟩)
        "ADD" = some ⟨"add", 0, fun _ => .ok (.str "")⟩ := by
  have h := claim_C9_amended_lowercase_keys []
    ⟨"add", 0, fun _ => .ok (.str "")⟩ (by decide)
  exact ⟨h.1, h.2 "ADD" (by decide)⟩

/-- C10: whichever dispatched command's `execute` returns a result equal
to the string `"EXIT"` — the sentinel is compared by plain equality —
the engine clears `running` and appends no history entry for that
dispatch; a successful non-sentinel result appends one successful entry
and a `ValueError` appends one failed entry, with `running` untouched. -/
theorem claim_C10_exit_sentinel (commands : List (String × Cmd))
    (st : ReplState) (user_input nm : String) (args : List String) (c : Cmd)
    (hsplit : splitInput user_input = nm :: args)
    (hlook : get_command commands (strLower nm) = some c) :
    (c.exec args = .ok (.str "EXIT") →
      process_command commands st user_input = { st with running := false })
    ∧ (∀ v, c.exec args = .ok v → v ≠ .str "EXIT" →
        process_command commands st user_input =
          { st with history := st.history ++
              [⟨strLower nm, args, v, true⟩] })
    ∧ (∀ msg, c.exec args = .valueError msg →
        process_command commands st user_input =
          { st with history := st.history ++
              [⟨strLower nm, args, .str ("Error: " ++ msg), false⟩] }) := by
  refine ⟨fun hexit => ?_, fun v hv hne => ?_, fun msg hmsg => ?_⟩
  · simp [process_command, hsplit, hlook, hexit]
  · simp [process_command, hsplit, hlook, hv, hne]
  · simp [process_command, hsplit, hlook, hmsg]

theorem claim_C10_witness :
    process_command [("exit", ⟨"exit", 0, fun _ => .ok (.str "EXIT")⟩)]
      ⟨true, []⟩ "exit" = { running := false, history := [] } := by
  have h := claim_C10_exit_sentinel
    [("exit", ⟨"exit", 0, fun _ => .ok (.str "EXIT")⟩)]
    ⟨true, []⟩ "exit" "exit" []
    ⟨"exit", 0, fun _ => .ok (.str "EXIT")⟩
    (by decide) rfl
  exact h.1 rfl

end Calc
